import Mathlib

/-!
# Verification of the squad-teamkill-bot log-processing engine

Shallow embedding of `src/squad_teamkill_bot/bot.py` (class `TKMonitor`):
the per-line processing pipeline `parse_line` with its three handlers
`_match_admincam`, `_match_damage` and `_match_teamkill`, acting on the
mutable instance state `recent_damages`, `seen_tks`, `last_log_id` and
`active_admin_cam_users`, plus the truncation-reopen step of `_log_follow`.

A raw log line is represented by the outcomes of the four regular-expression
searches the handlers run on it (possess-with-camera, unpossess, damage,
teamkill); the stateful handlers themselves are translated as explicit
state-passing functions, Python exceptions as `Except Unit` results in which
mutations performed before the raising point persist (Python mutates the
object in place, so state changed before a raise stays changed).
-/

deriving instance DecidableEq for Except

/-- Value of a digit string as a natural number; models Python `int(...)`
applied to the strings captured by the `[0-9]+` regex group in
`_match_teamkill` (bot.py lines 170 and 173). -/
def digitsToNat (cs : List Char) : Nat :=
  cs.foldl (fun n c => n * 10 + (c.toNat - 48)) 0

/-- `int(...)` on a captured digit string. -/
def pyInt (s : String) : Nat :=
  digitsToNat s.data

/-- Split a character list on a separator character (used to model
`datetime.strptime` on the fixed format of bot.py). -/
def splitOnChar (sep : Char) : List Char → List (List Char)
  | [] => [[]]
  | c :: rest =>
    if c = sep then [] :: splitOnChar sep rest
    else
      match splitOnChar sep rest with
      | [] => [[c]]
      | g :: gs => (c :: g) :: gs

/-- All characters are ASCII digits. -/
def allDigits (cs : List Char) : Bool :=
  cs.all fun c => decide (47 < c.toNat) && decide (c.toNat < 58)

/-- A nonempty, all-digit field, as a number. -/
def natField (cs : List Char) : Option Nat :=
  if !cs.isEmpty && allDigits cs then some (digitsToNat cs) else none

/-- A UTC timestamp as produced by `datetime.strptime` followed by
`timezone("UTC").localize` in bot.py (lines 186-189 and 257-260). -/
structure DateTimeUTC where
  year : Nat
  month : Nat
  day : Nat
  hour : Nat
  minute : Nat
  second : Nat
  microsecond : Nat
deriving DecidableEq

/-- Modelled library call: `datetime.strptime(s, "%Y.%m.%d-%H.%M.%S:%f")`
with UTC localization (bot.py lines 186-189 and 257-260).
Returns `none` where Python raises `ValueError` (malformed field or value
out of range; the month-specific upper bound on the day is abstracted to
31). -/
def strptimeSquad (s : String) : Option DateTimeUTC :=
  match splitOnChar '-' s.data with
  | [datePart, timePart] =>
    match splitOnChar '.' datePart, splitOnChar ':' timePart with
    | [ys, ms, ds], [hms, fs] =>
      match splitOnChar '.' hms with
      | [hs, mins, ss] =>
        match natField ys, natField ms, natField ds,
              natField hs, natField mins, natField ss, natField fs with
        | some y, some mo, some d, some h, some mi, some sec, some f =>
          if ys.length = 4 && (1 ≤ mo && mo ≤ 12) && (1 ≤ d && d ≤ 31)
              && h ≤ 23 && mi ≤ 59 && sec ≤ 59 && fs.length ≤ 6 then
            some ⟨y, mo, d, h, mi, sec, f * 10 ^ (6 - fs.length)⟩
          else none
        | _, _, _, _, _, _, _ => none
      | _ => none
    | _, _ => none
  | _ => none

/-- The weapon part of the damage regex of `_match_damage`
(bot.py line 136): after the literal `caused by ` the line must continue
with `BP_`, then the weapon name is the maximal run of non-underscore
characters, which must be followed by one more underscore
(regex `BP_([^_]*)_`). Fails when the asset text does not have this shape,
in which case the whole damage regex fails to match. -/
def weaponOfAsset (asset : String) : Option String :=
  match asset.data with
  | 'B' :: 'P' :: '_' :: rest =>
    let w := rest.takeWhile fun c => c != '_'
    if w.length < rest.length then some (String.mk w) else none
  | _ => none

/-- Captured groups of the possess / unpossess admin-camera regexes of
`_match_admincam` (bot.py lines 208-219 and 230-239). -/
structure RawAdmin where
  time : String
  log_id : String
  user : String
deriving DecidableEq

/-- Captured groups of the structural part of the damage regex of
`_match_damage` (bot.py lines 128-138): timestamp, log id, victim, killer,
and the asset text following `caused by ` (whose `BP_..._` shape is checked
by `weaponOfAsset`). -/
structure RawDamage where
  time : String
  log_id : String
  victim : String
  killer : String
  causedBy : String
deriving DecidableEq

/-- A raw log line, represented by the outcomes of the four regex searches
run on it: the possess-with-`Pawn=CameraMan_C_` pattern and the unpossess
pattern of `_match_admincam`, the damage pattern of `_match_damage`
(structural part; `weaponOfAsset` finishes it), and the
`LogSquadScorePoints ... TeamKilled` pattern of `_match_teamkill`, which
captures only the log id. `none` means the regex does not match the line. -/
structure Line where
  possess : Option RawAdmin
  unpossess : Option RawAdmin
  damage : Option RawDamage
  teamkill : Option String
deriving DecidableEq

/-- A buffered damage record: the named groups of a successful damage match,
with the weapon already extracted (an element of `self.recent_damages`). -/
structure DamageRec where
  time : String
  log_id : String
  victim : String
  killer : String
  weapon : String
deriving DecidableEq

/-- The `TeamKill` value built in `_match_teamkill` (bot.py line 193). -/
structure TeamKill where
  time_utc : DateTimeUTC
  victim : String
  killer : String
  weapon : String
deriving DecidableEq

/-- One line appended to the admin-camera audit log by `_match_admincam`
(bot.py lines 257-268): UTC timestamp, whether it is an ENTER (`true`) or a
LEAVE (`false`) transition, and the user. -/
structure AdminCamEvent where
  time : DateTimeUTC
  enter : Bool
  user : String
deriving DecidableEq

/-- The mutable engine state of one `TKMonitor` instance
(bot.py lines 30-33). -/
structure TKMState where
  recent_damages : List DamageRec
  seen_tks : Finset String
  last_log_id : Nat
  active_admin_cam_users : Finset String
deriving DecidableEq

/-- `TKMonitor.__init__` (bot.py lines 30-33): empty window, empty seen set,
`last_log_id = 0`, no active admin-camera users. -/
def initialState : TKMState :=
  ⟨[], ∅, 0, ∅⟩

/-- The window update of `_match_damage` (bot.py lines 146-150): append the
new record, then if the length exceeds 20 delete the oldest entry. -/
def insertDamage (w : List DamageRec) (d : DamageRec) : List DamageRec :=
  let w1 := w ++ [d]
  if w1.length > 20 then w1.drop 1 else w1

/-- `_match_damage` (bot.py lines 123-151): if the damage regex matches
(structural groups present and the `caused by` asset has the `BP_..._`
shape), buffer the record in `recent_damages` (bounded at 20) and report
`True`; otherwise leave the state unchanged and report `False`. -/
def matchDamage (l : Line) (s : TKMState) : TKMState × Bool :=
  match l.damage with
  | none => (s, false)
  | some r =>
    match weaponOfAsset r.causedBy with
    | none => (s, false)
    | some w =>
      let d : DamageRec := ⟨r.time, r.log_id, r.victim, r.killer, w⟩
      ({ s with recent_damages := insertDamage s.recent_damages d }, true)

/-- `_match_teamkill` (bot.py lines 153-198): on a teamkill match, clear
`seen_tks` when the wraparound test `int(log_id) + 500 < last_log_id`
holds, unconditionally set `last_log_id := int(log_id)`, drop duplicates
(string membership in `seen_tks`), then scan `recent_damages` oldest-first
for an equal log-id string; on a hit parse the buffered timestamp, mark the
id seen and return the `TeamKill`. A `ValueError` from `strptime` on the
buffered timestamp is the `.error` outcome: it is raised after the
wraparound/`last_log_id` updates but before the id is marked seen. -/
def matchTeamkill (l : Line) (s : TKMState) :
    TKMState × Except Unit (Option TeamKill) :=
  match l.teamkill with
  | none => (s, .ok none)
  | some tkid =>
    let s1 := if pyInt tkid + 500 < s.last_log_id
              then { s with seen_tks := ∅ } else s
    let s2 := { s1 with last_log_id := pyInt tkid }
    if tkid ∈ s2.seen_tks then (s2, .ok none)
    else
      match s2.recent_damages.find? (fun d => d.log_id == tkid) with
      | none => (s2, .ok none)
      | some d =>
        match strptimeSquad d.time with
        | none => (s2, .error ())
        | some t =>
          ({ s2 with seen_tks := insert tkid s2.seen_tks },
           .ok (some ⟨t, d.victim, d.killer, d.weapon⟩))

/-- `_match_admincam` (bot.py lines 200-273): on a possess-with-camera match
the user is added to `active_admin_cam_users` and an ENTER audit line is
written; otherwise, on an unpossess match, an inactive user is a false
positive (return `False`, no write), an active user is removed and a LEAVE
audit line is written. The timestamp parse and the audit-file open/write
happen after the set mutation; `writeOk = false` models an `OSError` from
the audit-file open/write, and a malformed timestamp models the
`ValueError` from `strptime` — either way the `.error` outcome carries the
already-mutated state. -/
def matchAdmincam (l : Line) (s : TKMState) (writeOk : Bool) :
    TKMState × Except Unit (Bool × List AdminCamEvent) :=
  match l.possess with
  | some m =>
    let s1 :=
      { s with active_admin_cam_users := insert m.user s.active_admin_cam_users }
    match strptimeSquad m.time with
    | none => (s1, .error ())
    | some t =>
      if writeOk then (s1, .ok (true, [⟨t, true, m.user⟩]))
      else (s1, .error ())
  | none =>
    match l.unpossess with
    | some m =>
      if m.user ∈ s.active_admin_cam_users then
        let s1 :=
          { s with active_admin_cam_users := s.active_admin_cam_users.erase m.user }
        match strptimeSquad m.time with
        | none => (s1, .error ())
        | some t =>
          if writeOk then (s1, .ok (true, [⟨t, false, m.user⟩]))
          else (s1, .error ())
      else (s, .ok (false, []))
    | none => (s, .ok (false, []))

/-- `parse_line` (bot.py lines 108-121): try the admin-camera handler, then
the damage handler, then the teamkill handler, stopping at the first
handler that reports a match; exceptions propagate (`.error`), carrying the
state as mutated so far. The result is the optional `TeamKill` together
with the admin-camera audit lines written while processing the line. -/
def parse_line (l : Line) (s : TKMState) (writeOk : Bool) :
    TKMState × Except Unit (Option TeamKill × List AdminCamEvent) :=
  match matchAdmincam l s writeOk with
  | (s1, .error e) => (s1, .error e)
  | (s1, .ok (true, evs)) => (s1, .ok (none, evs))
  | (s1, .ok (false, evs)) =>
    match matchDamage l s1 with
    | (s2, true) => (s2, .ok (none, evs))
    | (s2, false) =>
      match matchTeamkill l s2 with
      | (s3, .error e) => (s3, .error e)
      | (s3, .ok r) => (s3, .ok (r, evs))

/-- `tk_follow`'s processing loop (bot.py lines 275-283) over a finite list
of lines, accumulating the admin-camera audit lines; an uncaught exception
in `parse_line` aborts the loop (nothing in `run_tkm` catches it), leaving
the state as mutated so far. -/
def runLines : List Line → TKMState → List AdminCamEvent →
    TKMState × List AdminCamEvent
  | [], s, evs => (s, evs)
  | l :: ls, s, evs =>
    match parse_line l s true with
    | (s', .ok (_, evs')) => runLines ls s' (evs ++ evs')
    | (s', .error _) => (s', evs)

/-- State of the `_log_follow` generator (bot.py lines 69-105): the engine
state on `self`, plus the generator locals `file_size` and `line_counter`.
The open file handle itself is not modelled; its only observable is the
seek-to-end position recorded via `file_size`. -/
structure FollowerState where
  engine : TKMState
  fileSize : Nat
  lineCounter : Nat
deriving DecidableEq

/-- The truncation check of `_log_follow` (bot.py lines 91-100): when the
current size is smaller than the recorded size, close and reopen the file
(`_open_log_file`, bot.py lines 39-66, which seeks to end-of-file and
returns the new size); no field of the `TKMonitor` engine state is touched
by either function, only the generator-local handle and recorded size. -/
def truncationCheck (fs : FollowerState) (curSize newSizeAfterReopen : Nat) :
    FollowerState :=
  if curSize < fs.fileSize then { fs with fileSize := newSizeAfterReopen }
  else fs

/-- A line matching only the teamkill pattern, with the given log id. -/
def tkLine (id : String) : Line :=
  ⟨none, none, none, some id⟩

/-- A line matching only the damage pattern. -/
def dmgLine (time id victim killer asset : String) : Line :=
  ⟨none, none, some ⟨time, id, victim, killer, asset⟩, none⟩

/-- A line matching only the possess-with-camera pattern. -/
def possessLine (time id user : String) : Line :=
  ⟨some ⟨time, id, user⟩, none, none, none⟩

/-- A line matching only the unpossess pattern. -/
def unpossessLine (time id user : String) : Line :=
  ⟨none, some ⟨time, id, user⟩, none, none⟩

/-- The timestamp field of an admin-camera regex outcome parses, so the
audit emission in `_match_admincam` cannot raise `ValueError` on it. -/
def adminTimeOk (o : Option RawAdmin) : Bool :=
  match o with
  | none => true
  | some m => (strptimeSquad m.time).isSome

/-- Both admin-camera regex outcomes of a line have parseable timestamps. -/
def adminTimesOk (l : Line) : Bool :=
  adminTimeOk l.possess && adminTimeOk l.unpossess

/-- The transition of the most recent audit event emitted for user `u`:
`some true` for ENTER, `some false` for LEAVE, `none` if no event was
emitted for `u` yet. -/
def lastAdminFor (u : String) (evs : List AdminCamEvent) : Option Bool :=
  ((evs.filter fun e => e.user == u).getLast?).map fun e => e.enter

/-! ## Helper lemmas -/

theorem matchDamage_false_eq {l : Line} {s s' : TKMState}
    (h : matchDamage l s = (s', false)) : s' = s := by
  unfold matchDamage at h
  split at h
  · cases h; rfl
  · split at h
    · cases h; rfl
    · cases h

theorem matchDamage_frame {l : Line} {s : TKMState} :
    (matchDamage l s).1.seen_tks = s.seen_tks ∧
    (matchDamage l s).1.last_log_id = s.last_log_id ∧
    (matchDamage l s).1.active_admin_cam_users = s.active_admin_cam_users := by
  unfold matchDamage
  split
  · exact ⟨rfl, rfl, rfl⟩
  · split
    · exact ⟨rfl, rfl, rfl⟩
    · exact ⟨rfl, rfl, rfl⟩

theorem matchTeamkill_frame {l : Line} {s : TKMState} :
    (matchTeamkill l s).1.recent_damages = s.recent_damages ∧
    (matchTeamkill l s).1.active_admin_cam_users = s.active_admin_cam_users := by
  unfold matchTeamkill
  split
  · exact ⟨rfl, rfl⟩
  · dsimp only
    split
    · split
      · exact ⟨rfl, rfl⟩
      · split
        · exact ⟨rfl, rfl⟩
        · split
          · exact ⟨rfl, rfl⟩
          · exact ⟨rfl, rfl⟩
    · split
      · exact ⟨rfl, rfl⟩
      · split
        · exact ⟨rfl, rfl⟩
        · split
          · exact ⟨rfl, rfl⟩
          · exact ⟨rfl, rfl⟩

theorem matchAdmincam_frame {l : Line} {s : TKMState} {wok : Bool} :
    (matchAdmincam l s wok).1.recent_damages = s.recent_damages ∧
    (matchAdmincam l s wok).1.seen_tks = s.seen_tks ∧
    (matchAdmincam l s wok).1.last_log_id = s.last_log_id := by
  unfold matchAdmincam
  split
  · dsimp only
    split
    · exact ⟨rfl, rfl, rfl⟩
    · split
      · exact ⟨rfl, rfl, rfl⟩
      · exact ⟨rfl, rfl, rfl⟩
  · split
    · split
      · dsimp only
        split
        · exact ⟨rfl, rfl, rfl⟩
        · split
          · exact ⟨rfl, rfl, rfl⟩
          · exact ⟨rfl, rfl, rfl⟩
      · exact ⟨rfl, rfl, rfl⟩
    · exact ⟨rfl, rfl, rfl⟩

theorem matchAdmincam_false_eq {l : Line} {s s' : TKMState} {wok : Bool}
    {evs : List AdminCamEvent}
    (h : matchAdmincam l s wok = (s', .ok (false, evs))) :
    s' = s ∧ evs = [] := by
  unfold matchAdmincam at h
  split at h
  · dsimp only at h
    split at h
    · cases h
    · split at h
      · cases h
      · cases h
  · split at h
    · split at h
      · dsimp only at h
        split at h
        · cases h
        · split at h
          · cases h
          · cases h
      · cases h; exact ⟨rfl, rfl⟩
    · cases h; exact ⟨rfl, rfl⟩

theorem find?_append_last {α : Type} (p : α → Bool) (as : List α) (a : α)
    (h : ∀ x ∈ as, p x = false) (ha : p a = true) :
    (as ++ [a]).find? p = some a := by
  induction as with
  | nil => simp [List.find?, ha]
  | cons b bs ih =>
    have hb : p b = false := h b (by simp)
    rw [List.cons_append, List.find?_cons_of_neg _ (by simp [hb]),
      ih (fun x hx => h x (by simp [hx]))]

theorem find?_insertDamage (p : DamageRec → Bool) (w : List DamageRec)
    (d : DamageRec) (h : ∀ x ∈ w, p x = false) (hd : p d = true) :
    (insertDamage w d).find? p = some d := by
  unfold insertDamage
  dsimp only
  split
  · next hlen =>
    have hw : 1 ≤ w.length := by
      simp at hlen
      omega
    rw [List.drop_append_of_le_length hw]
    exact find?_append_last p _ d
      (fun x hx => h x (List.mem_of_mem_drop hx)) hd
  · exact find?_append_last p w d h hd

/-- The damage window after feeding a whole sequence of damage records from
the initial empty window holds exactly the last (up to) 20 records, in
insertion order (bot.py lines 146-150). -/
theorem window_foldl_eq_drop (ds : List DamageRec) :
    ds.foldl insertDamage [] = ds.drop (ds.length - 20) := by
  induction ds using List.reverseRecOn with
  | nil => rfl
  | append_singleton ds d ih =>
    rw [List.foldl_append]
    dsimp only [List.foldl]
    rw [ih]
    unfold insertDamage
    dsimp only
    by_cases hlen : 20 ≤ ds.length
    · have h1 : (ds.drop (ds.length - 20) ++ [d]).length > 20 := by
        simp only [List.length_append, List.length_drop, List.length_cons,
          List.length_nil]
        omega
      rw [if_pos h1]
      have h2 : 1 ≤ (ds.drop (ds.length - 20)).length := by
        simp only [List.length_drop]
        omega
      rw [List.drop_append_of_le_length h2, List.drop_drop,
        List.drop_append_of_le_length (by simp only [List.length_append,
          List.length_cons, List.length_nil]; omega)]
      have h3 : ds.length - 20 + 1 = (ds ++ [d]).length - 20 := by
        simp only [List.length_append, List.length_cons, List.length_nil]
        omega
      rw [h3]
    · have h1 : ¬ (ds.drop (ds.length - 20) ++ [d]).length > 20 := by
        simp only [List.length_append, List.length_drop, List.length_cons,
          List.length_nil]
        omega
      rw [if_neg h1]
      have h2 : ds.length - 20 = 0 := by omega
      have h3 : (ds ++ [d]).length - 20 = 0 := by
        simp only [List.length_append, List.length_cons, List.length_nil]
        omega
      rw [h2, h3, List.drop_zero, List.drop_zero]

/-- C5: for every sequence of damage insertions into the window (starting
from the empty window of `__init__`), after each insertion the window holds
at most 20 entries, and it holds exactly the most recently inserted records
in insertion order; when the bound would be exceeded the oldest (front)
entry is the one evicted. -/
theorem c5_damage_window_fifo_bound :
    (∀ ds : List DamageRec,
      (ds.foldl insertDamage []).length ≤ 20 ∧
      ds.foldl insertDamage [] = ds.drop (ds.length - 20)) ∧
    (∀ (w : List DamageRec) (d : DamageRec), w.length = 20 →
      insertDamage w d = w.drop 1 ++ [d]) := by
  constructor
  · intro ds
    refine ⟨?_, window_foldl_eq_drop ds⟩
    rw [window_foldl_eq_drop ds, List.length_drop]
    omega
  · intro w d hw
    unfold insertDamage
    dsimp only
    rw [if_pos (by simp only [List.length_append, List.length_cons,
        List.length_nil, hw]; omega),
      List.drop_append_of_le_length (by omega)]

/-- Witness for C5: a window of exactly 20 records evicts its oldest entry
on the next insertion. -/
theorem c5_damage_window_fifo_bound_witness :
    (List.replicate 20 (⟨"t", "1", "V", "K", "W"⟩ : DamageRec)).length = 20 ∧
    insertDamage (List.replicate 20 (⟨"t", "1", "V", "K", "W"⟩ : DamageRec))
        ⟨"t", "2", "V", "K", "W"⟩ =
      (List.replicate 20 (⟨"t", "1", "V", "K", "W"⟩ : DamageRec)).drop 1 ++
        [⟨"t", "2", "V", "K", "W"⟩] :=
  ⟨by decide, c5_damage_window_fifo_bound.2 _ _ (by decide)⟩

/-- C3: on a teamkill match, `last_log_id` is set to the notification's
log id unconditionally (also for later-discarded duplicates and
uncorrelated notifications); when `int(log_id) + 500 < last_log_id` the
seen set is cleared before the duplicate check runs (processing is exactly
as if `seen_tks` were empty), so such a notification is treated as new and
can correlate even if its id was in the seen set. -/
theorem c3_wraparound_clears_before_dedup :
    (∀ (l : Line) (tkid : String) (s : TKMState), l.teamkill = some tkid →
      (matchTeamkill l s).1.last_log_id = pyInt tkid) ∧
    (∀ (l : Line) (tkid : String) (s : TKMState), l.teamkill = some tkid →
      pyInt tkid + 500 < s.last_log_id →
      matchTeamkill l s = matchTeamkill l { s with seen_tks := ∅ }) ∧
    (∀ (l : Line) (tkid : String) (s : TKMState) (d : DamageRec)
        (t : DateTimeUTC),
      l.teamkill = some tkid →
      pyInt tkid + 500 < s.last_log_id →
      s.recent_damages.find? (fun x => x.log_id == tkid) = some d →
      strptimeSquad d.time = some t →
      matchTeamkill l s =
        ({ s with seen_tks := {tkid}, last_log_id := pyInt tkid },
         .ok (some ⟨t, d.victim, d.killer, d.weapon⟩))) := by
  refine ⟨?_, ?_, ?_⟩
  · intro l tkid s hl
    unfold matchTeamkill
    rw [hl]
    dsimp only
    repeat' split
    all_goals rfl
  · intro l tkid s hl hw
    obtain ⟨rd, seen, ll, au⟩ := s
    unfold matchTeamkill
    rw [hl]
    dsimp only
    simp only [if_pos hw]
  · intro l tkid s d t hl hw hfind hts
    obtain ⟨rd, seen, ll, au⟩ := s
    unfold matchTeamkill
    rw [hl]
    dsimp only
    simp only [if_pos hw]
    rw [if_neg (Finset.not_mem_empty tkid)]
    rw [show List.find? (fun x => x.log_id == tkid) rd = some d from hfind]
    dsimp only
    rw [hts]
    rfl

/-- Witness for C3: with `last_log_id = 1000` and an incoming teamkill with
log id `400` (400 + 500 = 900 < 1000), the seen set is cleared before the
duplicate check, so the notification correlates anew even though `"400"`
was in the seen set. -/
theorem c3_wraparound_clears_before_dedup_witness :
    matchTeamkill (tkLine "400")
        ⟨[⟨"2024.01.01-00.00.00:000", "400", "V", "K", "AK47"⟩],
          {"400"}, 1000, ∅⟩ =
      (⟨[⟨"2024.01.01-00.00.00:000", "400", "V", "K", "AK47"⟩],
          {"400"}, 400, ∅⟩,
       .ok (some ⟨⟨2024, 1, 1, 0, 0, 0, 0⟩, "V", "K", "AK47"⟩)) :=
  c3_wraparound_clears_before_dedup.2.2 (tkLine "400") "400"
    ⟨[⟨"2024.01.01-00.00.00:000", "400", "V", "K", "AK47"⟩], {"400"}, 1000, ∅⟩
    ⟨"2024.01.01-00.00.00:000", "400", "V", "K", "AK47"⟩
    ⟨2024, 1, 1, 0, 0, 0, 0⟩
    (by decide) (by decide) (by decide) (by decide)

/-- Counterexample to C4 as stated: the teamkill notification `"400"` is
not in the seen set and matches no buffered damage, yet processing it does
not leave `seen_tks` unchanged — the wraparound test (400 + 500 = 900 <
1000) clears the set from `{"900"}` to `∅`. -/
theorem c4_seen_cleared_counterexample :
    "400" ∉ (⟨[], {"900"}, 1000, ∅⟩ : TKMState).seen_tks ∧
    List.find? (fun x => x.log_id == "400")
      (⟨[], {"900"}, 1000, ∅⟩ : TKMState).recent_damages = none ∧
    (matchTeamkill (tkLine "400") ⟨[], {"900"}, 1000, ∅⟩).2 = .ok none ∧
    (matchTeamkill (tkLine "400") ⟨[], {"900"}, 1000, ∅⟩).1.seen_tks ≠
      (⟨[], {"900"}, 1000, ∅⟩ : TKMState).seen_tks := by
  refine ⟨by decide, by decide, by decide, by decide⟩

/-- C4 (amended): a teamkill notification whose log id is not in the seen
set and matches no buffered damage record yields `None`, and its id is not
added to `seen_tks`, so a later notification with the same id can still
correlate; when no wraparound is detected on this notification the seen set
is left exactly unchanged (a detected wraparound still clears it). -/
theorem c4_uncorrelated_not_marked_seen :
    ∀ (l : Line) (tkid : String) (s : TKMState), l.teamkill = some tkid →
      tkid ∉ s.seen_tks →
      s.recent_damages.find? (fun x => x.log_id == tkid) = none →
      (matchTeamkill l s).2 = .ok none ∧
      tkid ∉ (matchTeamkill l s).1.seen_tks ∧
      (¬ (pyInt tkid + 500 < s.last_log_id) →
        (matchTeamkill l s).1.seen_tks = s.seen_tks) := by
  intro l tkid s hl hseen hfind
  obtain ⟨rd, seen, ll, au⟩ := s
  unfold matchTeamkill
  rw [hl]
  dsimp only
  by_cases hw : pyInt tkid + 500 < ll
  · simp only [if_pos hw]
    rw [if_neg (Finset.not_mem_empty tkid),
      show List.find? (fun x => x.log_id == tkid) rd = none from hfind]
    exact ⟨rfl, Finset.not_mem_empty tkid, fun hc => absurd hw hc⟩
  · simp only [if_neg hw]
    rw [if_neg hseen,
      show List.find? (fun x => x.log_id == tkid) rd = none from hfind]
    exact ⟨rfl, hseen, fun _ => rfl⟩

/-- Witness for C4 (amended): a fresh uncorrelated teamkill id leaves the
seen set untouched when no wraparound is detected. -/
theorem c4_uncorrelated_not_marked_seen_witness :
    (matchTeamkill (tkLine "77") ⟨[], {"5"}, 60, ∅⟩).2 = .ok none ∧
    "77" ∉ (matchTeamkill (tkLine "77") ⟨[], {"5"}, 60, ∅⟩).1.seen_tks ∧
    (matchTeamkill (tkLine "77") ⟨[], {"5"}, 60, ∅⟩).1.seen_tks =
      (⟨[], {"5"}, 60, ∅⟩ : TKMState).seen_tks := by
  have h := c4_uncorrelated_not_marked_seen (tkLine "77") "77"
    ⟨[], {"5"}, 60, ∅⟩ (by decide) (by decide) (by decide)
  exact ⟨h.1, h.2.1, h.2.2 (by decide)⟩

/-- C10: log identifiers are compared by different representations:
deduplication (`seen_tks` membership) and the damage-window lookup compare
the matched digit strings, while the wraparound test converts to an
integer. The digit strings `"0400"` and `"400"` are numerically equal but
distinct identifiers for deduplication and correlation: a teamkill `"0400"`
does not correlate with a buffered damage `"400"`; a teamkill `"0400"`
correlates with a buffered damage `"0400"` even though `"400"` is in the
seen set; and `"0400"` drives the integer wraparound test exactly as 400
does. -/
theorem c10_log_id_representation_mismatch :
    pyInt "0400" = pyInt "400" ∧
    "0400" ≠ "400" ∧
    (matchTeamkill (tkLine "0400")
      ⟨[⟨"2024.01.01-00.00.00:000", "400", "V", "K", "AK47"⟩], ∅, 0, ∅⟩).2 =
        .ok none ∧
    matchTeamkill (tkLine "0400")
        ⟨[⟨"2024.01.01-00.00.00:000", "0400", "V", "K", "AK47"⟩],
          {"400"}, 0, ∅⟩ =
      (⟨[⟨"2024.01.01-00.00.00:000", "0400", "V", "K", "AK47"⟩],
          {"0400", "400"}, 400, ∅⟩,
       .ok (some ⟨⟨2024, 1, 1, 0, 0, 0, 0⟩, "V", "K", "AK47"⟩)) ∧
    matchTeamkill (tkLine "0400") ⟨[], {"0400"}, 1000, ∅⟩ =
      (⟨[], ∅, 400, ∅⟩, .ok none) := by
  refine ⟨by decide, by decide, by decide, by decide, by decide⟩

/-- Counterexample to C9 as stated: on a reopen after detected truncation
(current size 1200 < recorded size 50000) the damage window is not
discarded — a nonempty `recent_damages` persists unchanged across the
reopen, in addition to the admin-camera set, seen set and last log id. -/
theorem c9_window_persists_counterexample :
    1200 < (⟨⟨[⟨"t", "1", "V", "K", "W"⟩], {"9"}, 9, {"U"}⟩, 50000,
      7⟩ : FollowerState).fileSize ∧
    (truncationCheck ⟨⟨[⟨"t", "1", "V", "K", "W"⟩], {"9"}, 9, {"U"}⟩, 50000, 7⟩
        1200 1200).engine.recent_damages = [⟨"t", "1", "V", "K", "W"⟩] ∧
    ([⟨"t", "1", "V", "K", "W"⟩] : List DamageRec) ≠ [] := by
  refine ⟨by decide, by decide, by decide⟩

/-- C9 (amended): the reopen performed by the follower after a detected
truncation resets only the generator-local file state (the recorded size;
the fresh handle is seeked to end-of-file); the whole engine state —
`recent_damages` included, alongside `active_admin_cam_users`, `seen_tks`
and `last_log_id` — persists unchanged across the reopen. -/
theorem c9_reopen_engine_frame :
    ∀ (fs : FollowerState) (curSize newSize : Nat),
      (truncationCheck fs curSize newSize).engine = fs.engine ∧
      (curSize < fs.fileSize →
        truncationCheck fs curSize newSize = { fs with fileSize := newSize }) := by
  intro fs curSize newSize
  unfold truncationCheck
  by_cases h : curSize < fs.fileSize
  · rw [if_pos h]
    exact ⟨rfl, fun _ => rfl⟩
  · rw [if_neg h]
    exact ⟨rfl, fun hc => absurd hc h⟩

/-- Witness for C9 (amended): concrete truncation from 50000 to 1200 bytes;
the engine state passes through the reopen unchanged. -/
theorem c9_reopen_engine_frame_witness :
    (truncationCheck ⟨⟨[⟨"t", "1", "V", "K", "W"⟩], {"9"}, 9, {"U"}⟩, 50000, 7⟩
        1200 1200).engine =
      (⟨[⟨"t", "1", "V", "K", "W"⟩], {"9"}, 9, {"U"}⟩ : TKMState) ∧
    (1200 < 50000 →
      truncationCheck ⟨⟨[⟨"t", "1", "V", "K", "W"⟩], {"9"}, 9, {"U"}⟩, 50000, 7⟩
          1200 1200 =
        ⟨⟨[⟨"t", "1", "V", "K", "W"⟩], {"9"}, 9, {"U"}⟩, 1200, 7⟩) :=
  c9_reopen_engine_frame
    ⟨⟨[⟨"t", "1", "V", "K", "W"⟩], {"9"}, 9, {"U"}⟩, 50000, 7⟩ 1200 1200

/-- C1: a teamkill notification whose log id equals the log id of a damage
record just buffered by the damage handler (and not already marked seen)
correlates: the returned `TeamKill` carries the buffered damage's
timestamp, victim, killer and weapon — the weapon having been derived from
the `caused by` asset text via `weaponOfAsset` (`BP_` + name + `_`) — and
the id is marked seen. -/
theorem c1_correlation_from_buffered_damage :
    ∀ (ld lt : Line) (r : RawDamage) (w tkid : String) (t : DateTimeUTC)
      (s s1 : TKMState),
      ld.damage = some r →
      weaponOfAsset r.causedBy = some w →
      matchDamage ld s = (s1, true) →
      lt.teamkill = some tkid →
      r.log_id = tkid →
      (∀ x ∈ s.recent_damages, x.log_id ≠ tkid) →
      tkid ∉ s1.seen_tks →
      strptimeSquad r.time = some t →
      (matchTeamkill lt s1).2 = .ok (some ⟨t, r.victim, r.killer, w⟩) ∧
      tkid ∈ (matchTeamkill lt s1).1.seen_tks := by
  intro ld lt r w tkid t s s1 hld hw hmd hlt hid hfresh hseen hts
  unfold matchDamage at hmd
  rw [hld] at hmd
  dsimp only at hmd
  rw [hw] at hmd
  dsimp only at hmd
  have hs1 : { s with recent_damages := insertDamage s.recent_damages ⟨r.time, r.log_id, r.victim, r.killer, w⟩ } = s1 :=
    congrArg Prod.fst hmd
  obtain ⟨rd, seen, ll, au⟩ := s
  subst hs1
  dsimp only at hseen hfresh
  have hfindw : List.find? (fun x => x.log_id == tkid)
      (insertDamage rd ⟨r.time, r.log_id, r.victim, r.killer, w⟩) =
      some ⟨r.time, r.log_id, r.victim, r.killer, w⟩ :=
    find?_insertDamage _ rd _
      (fun x hx => beq_eq_false_iff_ne.mpr (hfresh x hx))
      (beq_iff_eq.mpr hid)
  unfold matchTeamkill
  rw [hlt]
  dsimp only
  by_cases hwrap : pyInt tkid + 500 < ll
  · simp only [if_pos hwrap]
    rw [if_neg (Finset.not_mem_empty tkid)]
    rw [show List.find? (fun x => x.log_id == tkid)
        (insertDamage rd ⟨r.time, r.log_id, r.victim, r.killer, w⟩) =
        some ⟨r.time, r.log_id, r.victim, r.killer, w⟩ from hfindw]
    dsimp only
    rw [show strptimeSquad r.time = some t from hts]
    exact ⟨rfl, Finset.mem_insert_self _ _⟩
  · simp only [if_neg hwrap]
    rw [if_neg hseen]
    rw [show List.find? (fun x => x.log_id == tkid)
        (insertDamage rd ⟨r.time, r.log_id, r.victim, r.killer, w⟩) =
        some ⟨r.time, r.log_id, r.victim, r.killer, w⟩ from hfindw]
    dsimp only
    rw [show strptimeSquad r.time = some t from hts]
    exact ⟨rfl, Finset.mem_insert_self _ _⟩

/-- Witness for C1: the spec's own example — damage line at log id 55 with
asset `BP_AK47_` buffered, then a teamkill line with log id 55 emits
`TeamKill` at 2024-01-01T00:00:00Z with victim V, killer K, weapon AK47. -/
theorem c1_correlation_from_buffered_damage_witness :
    matchDamage (dmgLine "2024.01.01-00.00.00:000" "55" "V" "K" "BP_AK47_")
        initialState =
      (⟨[⟨"2024.01.01-00.00.00:000", "55", "V", "K", "AK47"⟩], ∅, 0, ∅⟩,
        true) ∧
    (matchTeamkill (tkLine "55")
        ⟨[⟨"2024.01.01-00.00.00:000", "55", "V", "K", "AK47"⟩], ∅, 0, ∅⟩).2 =
      .ok (some ⟨⟨2024, 1, 1, 0, 0, 0, 0⟩, "V", "K", "AK47"⟩) ∧
    "55" ∈ (matchTeamkill (tkLine "55")
        ⟨[⟨"2024.01.01-00.00.00:000", "55", "V", "K", "AK47"⟩], ∅, 0, ∅⟩).1.seen_tks := by
  have h := c1_correlation_from_buffered_damage
    (dmgLine "2024.01.01-00.00.00:000" "55" "V" "K" "BP_AK47_")
    (tkLine "55")
    ⟨"2024.01.01-00.00.00:000", "55", "V", "K", "BP_AK47_"⟩
    "AK47" "55" ⟨2024, 1, 1, 0, 0, 0, 0⟩
    initialState
    ⟨[⟨"2024.01.01-00.00.00:000", "55", "V", "K", "AK47"⟩], ∅, 0, ∅⟩
    (by decide) (by decide) (by decide) (by decide) (by decide)
    (by intro x hx; cases hx) (by decide) (by decide)
  exact ⟨by decide, h.1, h.2⟩

/-- C2: whenever a teamkill notification correlates (a `TeamKill` is
returned), its id ends up in the seen set with `last_log_id` set to its
numeric value; a teamkill notification whose id is in the seen set (and
which does not itself trigger a wraparound-clear) produces `None`; in
particular, replaying the same notification immediately after a successful
correlation produces `None` and leaves the state fixed. -/
theorem c2_idempotent_correlation :
    (∀ (l : Line) (tkid : String) (s s' : TKMState) (rec : TeamKill),
      l.teamkill = some tkid →
      matchTeamkill l s = (s', .ok (some rec)) →
      tkid ∈ s'.seen_tks ∧ s'.last_log_id = pyInt tkid) ∧
    (∀ (l : Line) (tkid : String) (s2 : TKMState),
      l.teamkill = some tkid →
      tkid ∈ s2.seen_tks →
      ¬ (pyInt tkid + 500 < s2.last_log_id) →
      matchTeamkill l s2 = ({ s2 with last_log_id := pyInt tkid }, .ok none)) ∧
    (∀ (l l2 : Line) (tkid : String) (s s' : TKMState) (rec : TeamKill),
      l.teamkill = some tkid → l2.teamkill = some tkid →
      matchTeamkill l s = (s', .ok (some rec)) →
      matchTeamkill l2 s' = (s', .ok none)) := by
  have p1 : ∀ (l : Line) (tkid : String) (s s' : TKMState) (rec : TeamKill),
      l.teamkill = some tkid →
      matchTeamkill l s = (s', .ok (some rec)) →
      tkid ∈ s'.seen_tks ∧ s'.last_log_id = pyInt tkid := by
    intro l tkid s s' rec hl hmt
    unfold matchTeamkill at hmt
    rw [hl] at hmt
    dsimp only at hmt
    repeat' split at hmt
    all_goals
      first
      | (obtain ⟨h1, h2⟩ := Prod.mk.inj hmt
         rw [← h1]
         exact ⟨Finset.mem_insert_self _ _, rfl⟩)
      | simp at hmt
  have p2 : ∀ (l : Line) (tkid : String) (s2 : TKMState),
      l.teamkill = some tkid →
      tkid ∈ s2.seen_tks →
      ¬ (pyInt tkid + 500 < s2.last_log_id) →
      matchTeamkill l s2 = ({ s2 with last_log_id := pyInt tkid }, .ok none) := by
    intro l tkid s2 hl hmem hnw
    obtain ⟨rd, seen, ll, au⟩ := s2
    unfold matchTeamkill
    rw [hl]
    dsimp only
    dsimp only at hmem hnw
    simp only [if_neg hnw]
    rw [if_pos hmem]
  refine ⟨p1, p2, ?_⟩
  intro l l2 tkid s s' rec hl hl2 hmt
  obtain ⟨hmem, hlast⟩ := p1 l tkid s s' rec hl hmt
  have hupd : { s' with last_log_id := pyInt tkid } = s' := by
    obtain ⟨a, b, c, d⟩ := s'
    dsimp only at hlast ⊢
    rw [hlast]
  have hnw : ¬ (pyInt tkid + 500 < s'.last_log_id) := by
    rw [hlast]
    omega
  rw [p2 l2 tkid s' hl2 hmem hnw, hupd]

/-- Witness for C2: after correlating teamkill log id 55 against the
buffered damage at id 55, replaying the identical teamkill line yields
`None` and leaves the state unchanged. -/
theorem c2_idempotent_correlation_witness :
    matchTeamkill (tkLine "55")
        ⟨[⟨"2024.01.01-00.00.00:000", "55", "V", "K", "AK47"⟩], {"55"}, 55, ∅⟩ =
      (⟨[⟨"2024.01.01-00.00.00:000", "55", "V", "K", "AK47"⟩], {"55"}, 55, ∅⟩,
       .ok none) :=
  c2_idempotent_correlation.2.2 (tkLine "55") (tkLine "55") "55"
    ⟨[⟨"2024.01.01-00.00.00:000", "55", "V", "K", "AK47"⟩], ∅, 0, ∅⟩
    ⟨[⟨"2024.01.01-00.00.00:000", "55", "V", "K", "AK47"⟩], {"55"}, 55, ∅⟩
    ⟨⟨2024, 1, 1, 0, 0, 0, 0⟩, "V", "K", "AK47"⟩
    (by decide) (by decide) (by decide)

theorem matchTeamkill_error_seen_subset {l : Line} {s s' : TKMState}
    (h : matchTeamkill l s = (s', .error ())) :
    s'.seen_tks ⊆ s.seen_tks ∧ s'.recent_damages = s.recent_damages := by
  unfold matchTeamkill at h
  cases hl : l.teamkill with
  | none =>
    rw [hl] at h
    simp at h
  | some tkid =>
    rw [hl] at h
    dsimp only at h
    repeat' split at h
    all_goals
      first
      | (obtain ⟨h1, h2⟩ := Prod.mk.inj h
         rw [← h1]
         refine ⟨?_, rfl⟩
         first
         | exact fun x hx => absurd hx (Finset.not_mem_empty x)
         | exact fun x hx => hx)
      | simp at h

/-- C6: classification tries the admin-camera handler first, then the
damage handler, then the teamkill handler, short-circuiting at the first
handler that reports a match, so each line is handled by at most one
category: when the admin-camera handler matches, the damage and teamkill
state is untouched whatever the other patterns would say; when the damage
handler matches, the teamkill state is untouched; and a line matching no
pattern is silently discarded — `None` with the state unchanged, not an
error. -/
theorem c6_classifier_priority :
    (∀ (l : Line) (s : TKMState) (wok : Bool) (s1 : TKMState)
        (evs : List AdminCamEvent),
      matchAdmincam l s wok = (s1, .ok (true, evs)) →
      parse_line l s wok = (s1, .ok (none, evs)) ∧
      s1.recent_damages = s.recent_damages ∧ s1.seen_tks = s.seen_tks ∧
      s1.last_log_id = s.last_log_id) ∧
    (∀ (l : Line) (s s2 : TKMState) (wok : Bool),
      matchAdmincam l s wok = (s, .ok (false, [])) →
      matchDamage l s = (s2, true) →
      parse_line l s wok = (s2, .ok (none, [])) ∧
      s2.seen_tks = s.seen_tks ∧ s2.last_log_id = s.last_log_id ∧
      s2.active_admin_cam_users = s.active_admin_cam_users) ∧
    (∀ (l : Line) (s : TKMState) (wok : Bool),
      matchAdmincam l s wok = (s, .ok (false, [])) →
      matchDamage l s = (s, false) →
      l.teamkill = none →
      parse_line l s wok = (s, .ok (none, []))) := by
  refine ⟨?_, ?_, ?_⟩
  · intro l s wok s1 evs hadm
    have hfst : (matchAdmincam l s wok).1 = s1 := by rw [hadm]
    have hfr := @matchAdmincam_frame l s wok
    rw [hfst] at hfr
    constructor
    · unfold parse_line
      rw [hadm]
    · exact hfr
  · intro l s s2 wok hadm hdmg
    have hfst : (matchDamage l s).1 = s2 := by rw [hdmg]
    have hfr := @matchDamage_frame l s
    rw [hfst] at hfr
    constructor
    · unfold parse_line
      rw [hadm]
      dsimp only
      rw [hdmg]
    · exact hfr
  · intro l s wok hadm hdmg hlt
    have htk : matchTeamkill l s = (s, .ok none) := by
      unfold matchTeamkill
      rw [hlt]
    unfold parse_line
    rw [hadm]
    dsimp only
    rw [hdmg]
    dsimp only
    rw [htk]

/-- Witness for C6: a (synthetic) line matching the possess pattern, the
damage pattern and the teamkill pattern at once is handled by the
admin-camera handler alone: no damage record is buffered and no teamkill
state is touched. -/
theorem c6_classifier_priority_witness :
    parse_line
        ⟨some ⟨"2024.01.01-00.00.00:000", "5", "U"⟩, none,
         some ⟨"2024.01.01-00.00.00:000", "5", "V", "K", "BP_AK47_"⟩,
         some "5"⟩
        initialState true =
      (⟨[], ∅, 0, {"U"}⟩,
       .ok (none, [⟨⟨2024, 1, 1, 0, 0, 0, 0⟩, true, "U"⟩])) :=
  (c6_classifier_priority.1
    ⟨some ⟨"2024.01.01-00.00.00:000", "5", "U"⟩, none,
     some ⟨"2024.01.01-00.00.00:000", "5", "V", "K", "BP_AK47_"⟩,
     some "5"⟩
    initialState true ⟨[], ∅, 0, {"U"}⟩
    [⟨⟨2024, 1, 1, 0, 0, 0, 0⟩, true, "U"⟩] (by decide)).1

/-- Counterexample to C8 as stated: an error while opening/writing the
admin-camera audit sink (or formatting its timestamp) is raised only after
`active_admin_cam_users` has been mutated, so the error leaves a partially
applied per-line mutation: the possess line for user U fails its audit
write, yet U is already in the set (no Enter event was recorded). -/
theorem c8_partial_mutation_counterexample :
    parse_line (possessLine "2024.01.01-00.00.00:000" "7" "U")
        initialState false =
      (⟨[], ∅, 0, {"U"}⟩, .error ()) ∧
    (⟨[], ∅, 0, {"U"}⟩ : TKMState).active_admin_cam_users ≠
      initialState.active_admin_cam_users := by
  refine ⟨by decide, by decide⟩

/-- C8 (amended): an error raised while processing a line can never corrupt
the damage window or add an id to the seen set — on any error the buffered
damages are exactly the pre-line ones and `seen_tks` only shrinks (wraparound
clear) or stays — but per-line processing is not all-or-nothing: the
admin-camera set mutation precedes the fallible timestamp-format and
audit-write steps, so their failure leaves the set mutation applied with no
event emitted. -/
theorem c8_error_window_and_seen_intact :
    ∀ (l : Line) (s : TKMState) (wok : Bool) (s' : TKMState),
      parse_line l s wok = (s', .error ()) →
      s'.recent_damages = s.recent_damages ∧ s'.seen_tks ⊆ s.seen_tks := by
  intro l s wok s' h
  unfold parse_line at h
  split at h
  · next s1 e hadm =>
    cases e
    have hfst : (matchAdmincam l s wok).1 = s1 := by rw [hadm]
    have hfr := @matchAdmincam_frame l s wok
    rw [hfst] at hfr
    have h1 : s1 = s' := (Prod.mk.inj h).1
    rw [← h1]
    refine ⟨hfr.1, ?_⟩
    rw [hfr.2.1]
  · next s1 evs hadm =>
    simp at h
  · next s1 evs hadm =>
    obtain ⟨hs1, hevs⟩ := matchAdmincam_false_eq hadm
    split at h
    · simp at h
    · next s2 hdmg =>
      rw [hs1] at hdmg
      have hs2 : s2 = s := matchDamage_false_eq hdmg
      rw [hs2] at h
      split at h
      · next s3 e htk =>
        cases e
        have hsub := matchTeamkill_error_seen_subset htk
        have h1 : s3 = s' := (Prod.mk.inj h).1
        rw [← h1]
        exact ⟨hsub.2, hsub.1⟩
      · simp at h

/-- Witness for C8 (amended): at the failing possess line, the window and
the seen set are indeed untouched (only the admin-camera set changed). -/
theorem c8_error_window_and_seen_intact_witness :
    (⟨[], ∅, 0, {"U"}⟩ : TKMState).recent_damages =
      initialState.recent_damages ∧
    (⟨[], ∅, 0, {"U"}⟩ : TKMState).seen_tks ⊆ initialState.seen_tks :=
  c8_error_window_and_seen_intact
    (possessLine "2024.01.01-00.00.00:000" "7" "U") initialState false
    ⟨[], ∅, 0, {"U"}⟩ (by decide)

theorem lastAdminFor_append (u : String) (evs : List AdminCamEvent)
    (e : AdminCamEvent) :
    lastAdminFor u (evs ++ [e]) =
      if e.user == u then some e.enter else lastAdminFor u evs := by
  unfold lastAdminFor
  rw [List.filter_append]
  by_cases he : (e.user == u) = true
  · rw [if_pos he]
    have hf : List.filter (fun e2 => e2.user == u) [e] = [e] := by
      simp [List.filter, he]
    rw [hf, List.getLast?_concat]
    rfl
  · rw [if_neg he]
    have he' : (e.user == u) = false := by
      revert he
      cases e.user == u <;> simp
    have hf : List.filter (fun e2 => e2.user == u) [e] = [] := by
      simp [List.filter, he']
    rw [hf, List.append_nil]

theorem parse_line_possess {l : Line} {m : RawAdmin} {t : DateTimeUTC}
    (s : TKMState) (hp : l.possess = some m)
    (hts : strptimeSquad m.time = some t) :
    parse_line l s true =
      ({ s with active_admin_cam_users := insert m.user s.active_admin_cam_users },
       .ok (none, [⟨t, true, m.user⟩])) := by
  unfold parse_line matchAdmincam
  rw [hp]
  try dsimp only
  rw [hts]
  rfl

theorem parse_line_unpossess_active {l : Line} {m : RawAdmin} {t : DateTimeUTC}
    (s : TKMState) (hp : l.possess = none) (hu : l.unpossess = some m)
    (hts : strptimeSquad m.time = some t)
    (hmem : m.user ∈ s.active_admin_cam_users) :
    parse_line l s true =
      ({ s with active_admin_cam_users := s.active_admin_cam_users.erase m.user },
       .ok (none, [⟨t, false, m.user⟩])) := by
  unfold parse_line matchAdmincam
  rw [hp]
  try dsimp only
  rw [hu]
  try dsimp only
  rw [if_pos hmem]
  try dsimp only
  rw [hts]
  rfl

theorem matchAdmincam_no_admin {l : Line} (s : TKMState) (wok : Bool)
    (hp : l.possess = none)
    (h2 : ∀ m, l.unpossess = some m → m.user ∉ s.active_admin_cam_users) :
    matchAdmincam l s wok = (s, .ok (false, [])) := by
  unfold matchAdmincam
  rw [hp]
  dsimp only
  cases hu : l.unpossess with
  | none => rfl
  | some m =>
    dsimp only
    rw [if_neg (h2 m hu)]

theorem parse_line_nonadmin {l : Line} {s : TKMState} {wok : Bool}
    (hadm : matchAdmincam l s wok = (s, .ok (false, []))) :
    (parse_line l s wok).1.active_admin_cam_users = s.active_admin_cam_users ∧
    ∀ r evs, (parse_line l s wok).2 = .ok (r, evs) → evs = [] := by
  have h2 : ∀ s2 b, matchDamage l s = (s2, b) →
      s2.active_admin_cam_users = s.active_admin_cam_users := by
    intro s2 b hmd
    have hfst : (matchDamage l s).1 = s2 := by rw [hmd]
    have hfr := @matchDamage_frame l s
    rw [hfst] at hfr
    exact hfr.2.2
  unfold parse_line
  rw [hadm]
  dsimp only
  rcases hmd : matchDamage l s with ⟨s2, b⟩
  cases b
  · dsimp only
    have hs2a := h2 s2 false hmd
    have htf := @matchTeamkill_frame l s2
    rcases htk : matchTeamkill l s2 with ⟨s3, r⟩
    have hs3 : (matchTeamkill l s2).1 = s3 := by rw [htk]
    rw [hs3] at htf
    cases r with
    | error e =>
      dsimp only
      exact ⟨htf.2.trans hs2a, fun r evs hre => Except.noConfusion hre⟩
    | ok r0 =>
      dsimp only
      exact ⟨htf.2.trans hs2a,
        fun r evs hre => ((Prod.mk.inj (Except.ok.inj hre)).2).symm⟩
  · dsimp only
    exact ⟨h2 s2 true hmd, fun r evs hre =>
      ((Prod.mk.inj (Except.ok.inj hre)).2).symm⟩

theorem runLines_admin_invariant :
    ∀ (ls : List Line) (s : TKMState) (evs : List AdminCamEvent),
      ls.all adminTimesOk = true →
      (∀ u, u ∈ s.active_admin_cam_users ↔ lastAdminFor u evs = some true) →
      ∀ u, u ∈ (runLines ls s evs).1.active_admin_cam_users ↔
        lastAdminFor u (runLines ls s evs).2 = some true := by
  intro ls
  induction ls with
  | nil => intro s evs hok hinv u; exact hinv u
  | cons l ls ih =>
    intro s evs hok hinv u
    rw [List.all_cons, Bool.and_eq_true] at hok
    obtain ⟨hok1, hokr⟩ := hok
    unfold adminTimesOk at hok1
    rw [Bool.and_eq_true] at hok1
    cases hp : l.possess with
    | some m =>
      have hts' : (strptimeSquad m.time).isSome = true := by
        have h := hok1.1
        unfold adminTimeOk at h
        rw [hp] at h
        exact h
      obtain ⟨t, hts⟩ := Option.isSome_iff_exists.mp hts'
      have hpl := parse_line_possess s hp hts
      unfold runLines
      rw [hpl]
      dsimp only
      apply ih _ _ hokr _ u
      intro u2
      rw [lastAdminFor_append]
      dsimp only
      by_cases hue : m.user = u2
      · rw [if_pos (beq_iff_eq.mpr hue)]
        subst hue
        simp [Finset.mem_insert]
      · rw [if_neg (fun hc => hue (beq_iff_eq.mp hc))]
        constructor
        · intro hmem
          rcases Finset.mem_insert.mp hmem with heq | hm
          · exact absurd heq.symm hue
          · exact (hinv u2).mp hm
        · intro hl
          exact Finset.mem_insert_of_mem ((hinv u2).mpr hl)
    | none =>
      cases hu : l.unpossess with
      | some m =>
        by_cases hmem : m.user ∈ s.active_admin_cam_users
        · have hts' : (strptimeSquad m.time).isSome = true := by
            have h := hok1.2
            unfold adminTimeOk at h
            rw [hu] at h
            exact h
          obtain ⟨t, hts⟩ := Option.isSome_iff_exists.mp hts'
          have hpl := parse_line_unpossess_active s hp hu hts hmem
          unfold runLines
          rw [hpl]
          dsimp only
          apply ih _ _ hokr _ u
          intro u2
          rw [lastAdminFor_append]
          dsimp only
          by_cases hue : m.user = u2
          · rw [if_pos (beq_iff_eq.mpr hue)]
            subst hue
            simp [Finset.not_mem_erase]
          · rw [if_neg (fun hc => hue (beq_iff_eq.mp hc))]
            constructor
            · intro hmemu
              exact (hinv u2).mp (Finset.mem_erase.mp hmemu).2
            · intro hl
              exact Finset.mem_erase.mpr
                ⟨fun hc => hue hc.symm, (hinv u2).mpr hl⟩
        · have hadm := matchAdmincam_no_admin s true hp
            (fun m2 hm2 => by
              rw [hu] at hm2
              cases hm2
              exact hmem)
          have hna := parse_line_nonadmin hadm
          rcases hpl : parse_line l s true with ⟨s', res⟩
          have hact : s'.active_admin_cam_users = s.active_admin_cam_users := by
            have h := hna.1
            rw [hpl] at h
            exact h
          cases res with
          | ok p =>
            obtain ⟨r, evs'⟩ := p
            have hevs' : evs' = [] := by
              apply hna.2 r evs'
              rw [hpl]
            subst hevs'
            unfold runLines
            rw [hpl]
            dsimp only
            rw [List.append_nil]
            apply ih _ _ hokr _ u
            intro u2
            rw [hact]
            exact hinv u2
          | error e =>
            unfold runLines
            rw [hpl]
            dsimp only
            rw [hact]
            exact hinv u
      | none =>
        have hadm := matchAdmincam_no_admin s true hp
          (fun m2 hm2 => by rw [hu] at hm2; cases hm2)
        have hna := parse_line_nonadmin hadm
        rcases hpl : parse_line l s true with ⟨s', res⟩
        have hact : s'.active_admin_cam_users = s.active_admin_cam_users := by
          have h := hna.1
          rw [hpl] at h
          exact h
        cases res with
        | ok p =>
          obtain ⟨r, evs'⟩ := p
          have hevs' : evs' = [] := by
            apply hna.2 r evs'
            rw [hpl]
          subst hevs'
          unfold runLines
          rw [hpl]
          dsimp only
          rw [List.append_nil]
          apply ih _ _ hokr _ u
          intro u2
          rw [hact]
          exact hinv u2
        | error e =>
          unfold runLines
          rw [hpl]
          dsimp only
          rw [hact]
          exact hinv u

/-- C7: per-user admin-camera state machine. On every possess-with-camera
(Enter) match for user U, U is inserted into the active set regardless of
prior state and an ENTER audit event is emitted; on an unpossess (candidate
Leave) match, an inactive U is a false positive — nothing emitted, set
unchanged — while an active U is removed with a LEAVE audit event emitted;
consequently, over any run from the initial state (whose admin-camera
timestamps parse, so no emission raises), a user is in the active set iff
the most recent emitted (non-suppressed) transition for them was Enter. -/
theorem c7_admincam_state_machine :
    (∀ (l : Line) (m : RawAdmin) (s : TKMState) (t : DateTimeUTC),
      l.possess = some m → strptimeSquad m.time = some t →
      matchAdmincam l s true =
        ({ s with active_admin_cam_users := insert m.user s.active_admin_cam_users },
         .ok (true, [⟨t, true, m.user⟩]))) ∧
    (∀ (l : Line) (m : RawAdmin) (s : TKMState),
      l.possess = none → l.unpossess = some m →
      m.user ∉ s.active_admin_cam_users →
      matchAdmincam l s true = (s, .ok (false, []))) ∧
    (∀ (l : Line) (m : RawAdmin) (s : TKMState) (t : DateTimeUTC),
      l.possess = none → l.unpossess = some m →
      strptimeSquad m.time = some t →
      m.user ∈ s.active_admin_cam_users →
      matchAdmincam l s true =
        ({ s with active_admin_cam_users := s.active_admin_cam_users.erase m.user },
         .ok (true, [⟨t, false, m.user⟩]))) ∧
    (∀ (ls : List Line) (u : String),
      ls.all adminTimesOk = true →
      (u ∈ (runLines ls initialState []).1.active_admin_cam_users ↔
        lastAdminFor u (runLines ls initialState []).2 = some true)) := by
  refine ⟨?_, ?_, ?_, ?_⟩
  · intro l m s t hp hts
    unfold matchAdmincam
    rw [hp]
    try dsimp only
    rw [hts]
    rfl
  · intro l m s hp hu hmem
    exact matchAdmincam_no_admin s true hp
      (fun m2 hm2 => by rw [hu] at hm2; cases hm2; exact hmem)
  · intro l m s t hp hu hts hmem
    unfold matchAdmincam
    rw [hp]
    try dsimp only
    rw [hu]
    try dsimp only
    rw [if_pos hmem]
    try dsimp only
    rw [hts]
    rfl
  · intro ls u hok
    apply runLines_admin_invariant ls initialState [] hok
    intro u2
    simp [initialState, lastAdminFor]

/-- Witness for C7: a single Enter line for Alice from the initial state —
Alice is active, and the last emitted event for Alice is Enter. -/
theorem c7_admincam_state_machine_witness :
    [possessLine "2024.01.01-00.00.00:000" "1" "Alice"].all adminTimesOk
      = true ∧
    ("Alice" ∈ (runLines [possessLine "2024.01.01-00.00.00:000" "1" "Alice"]
        initialState []).1.active_admin_cam_users ↔
      lastAdminFor "Alice"
        (runLines [possessLine "2024.01.01-00.00.00:000" "1" "Alice"]
          initialState []).2 = some true) :=
  ⟨by decide,
   c7_admincam_state_machine.2.2.2
     [possessLine "2024.01.01-00.00.00:000" "1" "Alice"] "Alice" (by decide)⟩
